import Mathlib

/-!
Shallow embedding of `src/bitbucket.rs` from the `pr_demon` repository:
the Bitbucket pull-request build-status comment reconciler.

Machine integers (`i32`, `i64`) carry identifiers and timestamps only — no
arithmetic is performed on them — so they are embedded as `Int`.  Fallible
remote calls are embedded as `Except String`; a Rust panic (`unwrap`, map
indexing) is embedded as `Option` with `none` standing for the panic.
Remote collaborators (HTTP transport) are embedded as an explicit
environment of pre-determined responses, and the side effects a call
performs are collected into an explicit trace.
-/

/-- Embedding of Rust `str::contains(substr)`: `sub` occurs contiguously in `s`. -/
def strContains (s sub : String) : Bool :=
  decide (List.IsInfix sub.toList s.toList)

/-- `struct Link { href, name }` -/
structure Link where
  href : String
  name : Option String
deriving DecidableEq, Repr

/-- `struct Project` -/
structure Project where
  key : String
  id : Int
  name : String
  description : String
  public : Bool
  links : List (String × List Link)
deriving DecidableEq, Repr

/-- `struct Repository` -/
structure Repository where
  slug : String
  name : Option String
  project : Project
  public : Bool
  links : List (String × List Link)
deriving DecidableEq, Repr

/-- `struct GitReference { id, repository, displayId, latestCommit }` -/
structure GitReference where
  id : String
  repository : Repository
  displayId : String
  latestCommit : String
deriving DecidableEq, Repr

/-- `struct User` -/
structure User where
  name : String
  emailAddress : String
  id : Int
  displayName : String
  active : Bool
  slug : String
  links : List (String × List Link)
deriving DecidableEq, Repr

/-- `struct PullRequestParticipant { user, role, approved }` -/
structure PullRequestParticipant where
  user : User
  role : String
  approved : Bool
deriving DecidableEq, Repr

/-- `struct PullRequest` (the Bitbucket wire format; `links` is the
`BTreeMap<String, Vec<Link>>` embedded as an association list). -/
structure PullRequest where
  id : Int
  version : Int
  title : String
  description : Option String
  state : String
  isOpen : Bool
  closed : Bool
  createdDate : Int
  updatedDate : Int
  fromRef : GitReference
  toRef : GitReference
  locked : Bool
  author : PullRequestParticipant
  reviewers : List PullRequestParticipant
  participants : List PullRequestParticipant
  links : List (String × List Link)
deriving DecidableEq, Repr

/-- `struct Comment { id, version, text, author, createdDate, updatedDate }` -/
structure Comment where
  id : Int
  version : Int
  text : String
  author : User
  createdDate : Int
  updatedDate : Int
deriving DecidableEq, Repr

/-- `struct Activity` -/
structure Activity where
  id : Int
  createdDate : Int
  user : User
  action : String
  commentAction : Option String
  comment : Option Comment
deriving DecidableEq, Repr

/-- `enum BuildState { INPROGRESS, FAILED, SUCCESSFUL }` (Bitbucket wire format). -/
inductive BuildState where
  | INPROGRESS
  | FAILED
  | SUCCESSFUL
deriving DecidableEq, Repr

/-- `struct Build { state, key, name, url, description }` -/
structure Build where
  state : BuildState
  key : String
  name : String
  url : String
  description : String
deriving DecidableEq, Repr

/-- `struct PagedApi<T> { size, limit, isLastPage, values, start }` -/
structure PagedApi (T : Type) where
  size : Int
  limit : Int
  isLastPage : Bool
  values : List T
  start : Int
deriving DecidableEq, Repr

/-- `struct BitbucketCredentials` -/
structure BitbucketCredentials where
  username : String
  password : String
  base_url : String
  project_slug : String
  repo_slug : String
  post_build : Bool
deriving DecidableEq, Repr

namespace core

/-- Modelled from the spec: the crate-root `::User { name, email }` record
(only its declaration is outside `src/`; `get_pr_list` constructs it). -/
structure User where
  name : String
  email : String
deriving DecidableEq, Repr

/-- Modelled from the spec: the crate-root `::PullRequest` descriptor
(identifier, web URL, source ref, source-branch head commit id, title, author),
exactly the fields `get_pr_list` constructs. -/
structure PullRequest where
  id : Int
  web_url : String
  from_ref : String
  from_commit : String
  title : String
  author : core.User
deriving DecidableEq, Repr

/-- Modelled from the spec: the crate-root `::BuildState` lifecycle phase
`Queued | Running | Finished`. -/
inductive BuildState where
  | Queued
  | Running
  | Finished
deriving DecidableEq, Repr

/-- Modelled from the spec: the crate-root `::BuildStatus` outcome
`Success | Failure`. -/
inductive BuildStatus where
  | Success
  | Failure
deriving DecidableEq, Repr

/-- Modelled from the spec: the crate-root `::BuildDetails` descriptor —
build-run id, build identifier, web URL, lifecycle phase, outcome, optional
free-text status message: exactly the fields `bitbucket.rs` reads. -/
structure BuildDetails where
  id : Int
  build_id : String
  web_url : String
  state : core.BuildState
  status : core.BuildStatus
  status_text : Option String
deriving DecidableEq, Repr

end core

/-- `fn make_queued_comment(build_url, commit_id)` -/
def make_queued_comment (build_url commit_id : String) : String :=
  "⏳ [Build](" ++ build_url ++ ") for commit " ++ commit_id ++ " queued"

/-- `fn make_success_comment(build_url, commit_id, build_message)` -/
def make_success_comment (build_url commit_id build_message : String) : String :=
  "✔️ [Build](" ++ build_url ++ ") for commit " ++ commit_id ++
    " is **successful**: " ++ build_message

/-- `fn make_failure_comment(build_url, commit_id, build_message)` -/
def make_failure_comment (build_url commit_id build_message : String) : String :=
  "❌ [Build](" ++ build_url ++ ") for commit " ++ commit_id ++
    " has **failed**: " ++ build_message

/-- `fn matching_comments(comments, text)`: first comment whose text equals
`text` verbatim. -/
def matching_comments (comments : List Comment) (text : String) : Option Comment :=
  comments.find? (fun comment => comment.text == text)

/-- `fn matching_comments_substring(comments, substr)`: first comment whose
text contains `substr` as a substring. -/
def matching_comments_substring (comments : List Comment) (substr : String) : Option Comment :=
  comments.find? (fun comment => strContains comment.text substr)

/-- The HTTP status of the build-status post: Bitbucket acknowledges with
`204 No Content`; any other status is carried with its rendered text. -/
inductive StatusCode where
  | noContent
  | other (rendered : String)
deriving DecidableEq, Repr

/-- The outcome event payload built by `update_pr_build_status_comment`
(`JsonDictionary` with keys `pr`, `build` and, on success, `comment`). -/
structure EventPayload where
  pr : core.PullRequest
  build : core.BuildDetails
  comment : Option Comment
deriving DecidableEq, Repr

/-- One observable side effect of a reconciliation call: a remote write
(`PUT` edit, `POST` create, build-status post) or a broadcast event. -/
inductive Effect where
  | editCall (pr_id comment_id version : Int) (text : String)
  | postCall (pr_id : Int) (text : String)
  | postBuildCall (commit : String) (build : Build)
  | broadcast (opcode : String) (payload : EventPayload)
deriving DecidableEq, Repr

/-- Pre-determined responses of the remote collaborators for one lifecycle
call: the fetched own-comment list, the result of an edit, the result of a
create, and the response to the build-status post. -/
structure RemoteEnv where
  comments : Except String (List Comment)
  editResult : Except String Comment
  postResult : Except String Comment
  postBuildResponse : Except String StatusCode
deriving Repr

/-- `fn broadcast(&self, opcode, payload)`: prepends `Bitbucket::` to the
opcode and hands the message to the fanout broadcaster. -/
def broadcastEffect (opcode : String) (payload : EventPayload) : Effect :=
  Effect.broadcast ("Bitbucket::" ++ opcode) payload

/-- `fn post_comment(&self, pr_id, text)`: `POST` of the comment body,
expecting `201 Created`. -/
def post_comment (env : RemoteEnv) (pr_id : Int) (text : String) :
    Except String Comment × List Effect :=
  (match env.postResult with
    | Except.ok comment => Except.ok comment
    | Except.error err => Except.error ("Error posting comment " ++ err),
   [Effect.postCall pr_id text])

/-- `fn edit_comment(&self, pr_id, comment, text)`: `PUT` of
`CommentEdit { text, version: comment.version }` to the URL ending in
`comment.id`, expecting `200 Ok`. -/
def edit_comment (env : RemoteEnv) (pr_id : Int) (comment : Comment) (text : String) :
    Except String Comment × List Effect :=
  (match env.editResult with
    | Except.ok comment => Except.ok comment
    | Except.error err => Except.error ("Error posting comment " ++ err),
   [Effect.editCall pr_id comment.id comment.version text])

/-- `fn make_build(build)`: maps the lifecycle phase and outcome to the
Bitbucket build-state and assembles the build-status record. -/
def make_build (build : core.BuildDetails) : Build :=
  let build_status :=
    match build.state with
    | core.BuildState.Finished =>
      match build.status with
      | core.BuildStatus.Success => BuildState.SUCCESSFUL
      | _ => BuildState.FAILED
    | _ => BuildState.INPROGRESS
  let description :=
    match build.status_text with
    | none => ""
    | some text => text
  { state := build_status
    key := build.build_id
    name := toString build.id
    url := build.web_url
    description := description }

/-- `fn post_build(&self, build, pr)`: posts `make_build(build)` against
`pr.from_commit`; success is a `204 No Content` acknowledgment, any other
status is an error rendered as its text. -/
def post_build (env : RemoteEnv) (build : core.BuildDetails) (pr : core.PullRequest) :
    Except String Build × List Effect :=
  let bitbucket_build := make_build build
  (match env.postBuildResponse with
    | Except.ok StatusCode.noContent => Except.ok bitbucket_build
    | Except.ok (StatusCode.other rendered) => Except.error rendered
    | Except.error err => Except.error ("Error posting build " ++ err),
   [Effect.postBuildCall pr.from_commit bitbucket_build])

/-- The comment text computed at the top of `update_pr_build_status_comment`:
the template chosen by the Bitbucket build-state, with an absent status
message rendered as the empty string. -/
def desired_text (build : core.BuildDetails) (pr : core.PullRequest)
    (state : BuildState) : String :=
  match state with
  | BuildState.INPROGRESS => make_queued_comment build.web_url pr.from_commit
  | BuildState.FAILED =>
    let status_text :=
      match build.status_text with
      | none => ""
      | some text => text
    make_failure_comment build.web_url pr.from_commit status_text
  | BuildState.SUCCESSFUL =>
    let status_text :=
      match build.status_text with
      | none => ""
      | some text => text
    make_success_comment build.web_url pr.from_commit status_text

/-- The three-way decision of the Comment Matcher, as taken inline in
`update_pr_build_status_comment`: reuse an existing comment, edit a prior
one, or create a new one. -/
inductive CommentAction where
  | existing (comment : Comment)
  | update (comment : Comment)
  | post
deriving DecidableEq, Repr

/-- The matcher decision of `update_pr_build_status_comment` (lines 312-324):
first an exact-text match, else a commit-id substring match, else create. -/
def classify_comment (comments : List Comment) (text commit : String) : CommentAction :=
  match matching_comments comments text with
  | some comment => CommentAction.existing comment
  | none =>
    match matching_comments_substring comments commit with
    | some comment => CommentAction.update comment
    | none => CommentAction.post

/-- `fn update_pr_build_status_comment(&self, pr, build, state)`: computes the
desired text, fetches the own-comment candidates, classifies, performs the
resulting write, broadcasts one `Comment::<opcode>` event whose payload holds
`pr`, `build` and the comment when the result is `Ok`, and returns the result. -/
def update_pr_build_status_comment (env : RemoteEnv) (pr : core.PullRequest)
    (build : core.BuildDetails) (state : BuildState) :
    Except String Comment × List Effect :=
  let text := desired_text build pr state
  let step : (Except String Comment × List Effect) × String :=
    match env.comments with
    | Except.ok comments =>
      match classify_comment comments text pr.from_commit with
      | CommentAction.existing comment => ((Except.ok comment, []), "Existing")
      | CommentAction.update comment => (edit_comment env pr.id comment text, "Update")
      | CommentAction.post => (post_comment env pr.id text, "Post")
    | Except.error err =>
      ((Except.error ("Error getting list of comments " ++ err), []), "Error")
  let payload : EventPayload :=
    { pr := pr, build := build, comment := step.1.1.toOption }
  (step.1.1, step.1.2 ++ [broadcastEffect ("Comment::" ++ step.2) payload])

/-- `fn build_queued(&self, pr, build)`: reconcile the comment with state
`INPROGRESS`; on success, post the native build status iff the
`post_build` credential flag is set. -/
def build_queued (env : RemoteEnv) (credentials : BitbucketCredentials)
    (pr : core.PullRequest) (build : core.BuildDetails) :
    Except String Unit × List Effect :=
  let step := update_pr_build_status_comment env pr build BuildState.INPROGRESS
  match step.1 with
  | Except.error err => (Except.error ("Error submitting comment: " ++ err), step.2)
  | Except.ok _ =>
    match credentials.post_build with
    | true =>
      let posted := post_build env build pr
      (match posted.1 with
        | Except.ok _ => Except.ok ()
        | Except.error err => Except.error ("Error posting build: " ++ err),
       step.2 ++ posted.2)
    | false => (Except.ok (), step.2)

/-- `fn build_running(&self, pr, build)`: delegates to `build_queued`. -/
def build_running (env : RemoteEnv) (credentials : BitbucketCredentials)
    (pr : core.PullRequest) (build : core.BuildDetails) :
    Except String Unit × List Effect :=
  build_queued env credentials pr build

/-- `fn build_success(&self, pr, build)`: reconcile with state `SUCCESSFUL`;
on success, post the native build status iff the flag is set. -/
def build_success (env : RemoteEnv) (credentials : BitbucketCredentials)
    (pr : core.PullRequest) (build : core.BuildDetails) :
    Except String Unit × List Effect :=
  let step := update_pr_build_status_comment env pr build BuildState.SUCCESSFUL
  match step.1 with
  | Except.error err => (Except.error ("Error submitting comment: " ++ err), step.2)
  | Except.ok _ =>
    match credentials.post_build with
    | true =>
      let posted := post_build env build pr
      (match posted.1 with
        | Except.ok _ => Except.ok ()
        | Except.error err => Except.error ("Error posting build: " ++ err),
       step.2 ++ posted.2)
    | false => (Except.ok (), step.2)

/-- `fn build_failure(&self, pr, build)`: reconcile with state `FAILED`;
on success, post the native build status iff the flag is set. -/
def build_failure (env : RemoteEnv) (credentials : BitbucketCredentials)
    (pr : core.PullRequest) (build : core.BuildDetails) :
    Except String Unit × List Effect :=
  let step := update_pr_build_status_comment env pr build BuildState.FAILED
  match step.1 with
  | Except.error err => (Except.error ("Error submitting comment: " ++ err), step.2)
  | Except.ok _ =>
    match credentials.post_build with
    | true =>
      let posted := post_build env build pr
      (match posted.1 with
        | Except.ok _ => Except.ok ()
        | Except.error err => Except.error ("Error posting build: " ++ err),
       step.2 ++ posted.2)
    | false => (Except.ok (), step.2)

/-- The pure tail of `fn get_comments(&self, pr_id)` applied to a
successfully fetched activity list: keep activities that carry a comment and
whose user is the configured account, then `unwrap` each comment — the
`unwrap` embedded as `Option` binding, `none` standing for a panic. -/
def get_comments_checked (username : String) (activities : List Activity) :
    Option (List Comment) :=
  List.mapM' (fun activity => activity.comment)
    ((activities.filter (fun activity => activity.comment.isSome)).filter
      (fun activity => activity.user.name == username))

/-- The `pr.links["self"][0]` lookup of `get_pr_list`, embedded as `Option`:
`none` stands for the panic on a missing `"self"` key or an empty link list. -/
def pr_self_link (pr : PullRequest) : Option Link :=
  (pr.links.lookup "self").bind List.head?

/-- The crate-root descriptor `get_pr_list` builds for one wire pull request,
given the first `"self"` link. -/
def prDescOf (pr : PullRequest) (link : Link) : core.PullRequest :=
  { id := pr.id
    web_url := link.href
    from_ref := pr.fromRef.id
    from_commit := pr.fromRef.latestCommit
    title := pr.title
    author :=
      { name := pr.author.user.displayName
        email := pr.author.user.emailAddress } }

/-- The pure tail of `fn get_pr_list(&self)` applied to the fetched page:
maps each wire pull request to a crate-root descriptor whose `web_url` is the
href of the first `"self"` link; the whole call panics (`none`) if any pull
request lacks that link. A failed fetch is formatted into an `Err`. -/
def get_pr_list (response : Except String (PagedApi PullRequest)) :
    Option (Except String (List core.PullRequest)) :=
  match response with
  | Except.ok prs =>
    (List.mapM' (fun pr => (pr_self_link pr).map (prDescOf pr)) prs.values).map Except.ok
  | Except.error err => some (Except.error ("Error getting list of Pull Requests " ++ err))

/-! ## Helper notions used by the theorems -/

/-- `c` is the first element of `l` satisfying `p`: the list splits around `c`
with no earlier element satisfying `p`. -/
def firstWith {α : Type} (p : α → Prop) (l : List α) (c : α) : Prop :=
  ∃ l₁ l₂, l = l₁ ++ c :: l₂ ∧ p c ∧ ∀ x ∈ l₁, ¬ p x

/-- Remote comment writes: the `PUT` edit and the `POST` create. -/
def isWriteEffect : Effect → Bool
  | Effect.editCall _ _ _ _ => true
  | Effect.postCall _ _ => true
  | _ => false

/-- Build-status posts. -/
def isPostBuildEffect : Effect → Bool
  | Effect.postBuildCall _ _ => true
  | _ => false

/-- Number of remote comment writes in a trace. -/
def writeCount (effects : List Effect) : Nat :=
  (effects.filter isWriteEffect).length

/-- Number of build-status posts in a trace. -/
def postBuildCount (effects : List Effect) : Nat :=
  (effects.filter isPostBuildEffect).length

lemma find?_imp_firstWith {α : Type} (p : α → Bool) (l : List α) (c : α)
    (h : l.find? p = some c) : firstWith (fun x => p x = true) l c := by
  rw [List.find?_eq_some] at h
  obtain ⟨hpc, l₁, l₂, hsplit, hprev⟩ := h
  exact ⟨l₁, l₂, hsplit, hpc, fun x hx => by simpa using hprev x hx⟩

/-! ## C3: template exactness -/

/-- C3: the text generator produces exactly the specified template strings
for each tri-state label, and an absent status message is rendered as the
empty string. -/
theorem template_exactness :
    make_queued_comment "http://b" "abc123" =
      "⏳ [Build](http://b) for commit abc123 queued" ∧
    make_success_comment "http://b" "abc123" "ok" =
      "✔️ [Build](http://b) for commit abc123 is **successful**: ok" ∧
    make_failure_comment "http://b" "abc123" "oops" =
      "❌ [Build](http://b) for commit abc123 has **failed**: oops" ∧
    (∀ u c, make_queued_comment u c =
      "⏳ [Build](" ++ u ++ ") for commit " ++ c ++ " queued") ∧
    (∀ u c m, make_success_comment u c m =
      "✔️ [Build](" ++ u ++ ") for commit " ++ c ++ " is **successful**: " ++ m) ∧
    (∀ u c m, make_failure_comment u c m =
      "❌ [Build](" ++ u ++ ") for commit " ++ c ++ " has **failed**: " ++ m) ∧
    (∀ (build : core.BuildDetails) (pr : core.PullRequest),
      build.status_text = none →
      desired_text build pr BuildState.INPROGRESS =
        make_queued_comment build.web_url pr.from_commit ∧
      desired_text build pr BuildState.SUCCESSFUL =
        make_success_comment build.web_url pr.from_commit "" ∧
      desired_text build pr BuildState.FAILED =
        make_failure_comment build.web_url pr.from_commit "") := by
  refine ⟨rfl, rfl, rfl, fun u c => rfl, fun u c m => rfl, fun u c m => rfl, ?_⟩
  intro build pr h
  refine ⟨rfl, ?_, ?_⟩ <;> simp [desired_text, h]

/-- Sample pull-request descriptor used by concrete witnesses. -/
def prX : core.PullRequest :=
  { id := 42
    web_url := "http://example/pr/42"
    from_ref := "refs/heads/topic"
    from_commit := "abc123"
    title := "A change"
    author := { name := "Dee", email := "dee@example.com" } }

/-- Sample build descriptor with no status message. -/
def buildNoMsg : core.BuildDetails :=
  { id := 7
    build_id := "BK-1"
    web_url := "http://b"
    state := core.BuildState.Finished
    status := core.BuildStatus.Failure
    status_text := none }

/-- C3 witness: the absent-message clause at a concrete build descriptor. -/
theorem template_exactness_witness :
    buildNoMsg.status_text = none ∧
    desired_text buildNoMsg prX BuildState.FAILED =
      make_failure_comment buildNoMsg.web_url prX.from_commit "" :=
  ⟨rfl, (template_exactness.2.2.2.2.2.2 buildNoMsg prX rfl).2.2⟩

/-! ## C4: label mapping -/

/-- C4: the mapping from lifecycle phase and outcome to the tri-state label:
Queued and Running map to in-progress (`build_running` delegates to
`build_queued`), Finished with Success maps to successful, and Finished with
any other outcome maps to failed. -/
theorem label_mapping :
    (∀ build : core.BuildDetails, build.state = core.BuildState.Queued →
      (make_build build).state = BuildState.INPROGRESS) ∧
    (∀ build : core.BuildDetails, build.state = core.BuildState.Running →
      (make_build build).state = BuildState.INPROGRESS) ∧
    (∀ build : core.BuildDetails, build.state = core.BuildState.Finished →
      build.status = core.BuildStatus.Success →
      (make_build build).state = BuildState.SUCCESSFUL) ∧
    (∀ build : core.BuildDetails, build.state = core.BuildState.Finished →
      build.status ≠ core.BuildStatus.Success →
      (make_build build).state = BuildState.FAILED) ∧
    (∀ env credentials pr build,
      build_running env credentials pr build =
        build_queued env credentials pr build) := by
  refine ⟨?_, ?_, ?_, ?_, fun env credentials pr build => rfl⟩
  · intro build h; simp [make_build, h]
  · intro build h; simp [make_build, h]
  · intro build h hs; simp [make_build, h, hs]
  · intro build h hs
    cases hstatus : build.status with
    | Success => exact absurd hstatus hs
    | Failure => simp [make_build, h, hstatus]

/-- Sample build descriptor: queued phase. -/
def buildQueuedX : core.BuildDetails :=
  { buildNoMsg with state := core.BuildState.Queued, status_text := some "waiting" }

/-- Sample build descriptor: running phase. -/
def buildRunningX : core.BuildDetails :=
  { buildNoMsg with state := core.BuildState.Running }

/-- Sample build descriptor: finished successfully. -/
def buildSuccessX : core.BuildDetails :=
  { buildNoMsg with status := core.BuildStatus.Success, status_text := some "ok" }

/-- Sample build descriptor: finished with failure. -/
def buildFailureX : core.BuildDetails :=
  { buildNoMsg with status_text := some "oops" }

/-- C4 witness: the four phase/outcome cases at concrete build descriptors. -/
theorem label_mapping_witness :
    (make_build buildQueuedX).state = BuildState.INPROGRESS ∧
    (make_build buildRunningX).state = BuildState.INPROGRESS ∧
    (make_build buildSuccessX).state = BuildState.SUCCESSFUL ∧
    (make_build buildFailureX).state = BuildState.FAILED :=
  ⟨label_mapping.1 buildQueuedX rfl,
   label_mapping.2.1 buildRunningX rfl,
   label_mapping.2.2.1 buildSuccessX rfl rfl,
   label_mapping.2.2.2.1 buildFailureX rfl (by decide)⟩

lemma firstWith_congr {α : Type} {p q : α → Prop} (h : ∀ x, p x ↔ q x)
    {l : List α} {c : α} : firstWith p l c → firstWith q l c := by
  rintro ⟨l₁, l₂, rfl, hpc, hprev⟩
  exact ⟨l₁, l₂, rfl, (h c).mp hpc,
    fun x hx hq => hprev x hx ((h x).mpr hq)⟩

/-! ## C1: matcher classification and precedence -/

/-- C1: the matcher classifies in strict precedence order — an exact text
match anywhere in the list yields `existing` with the first such candidate;
otherwise a commit-id substring match yields `update` with the first such
candidate; otherwise `post`. -/
theorem matcher_classification (l : List Comment) (t k : String) :
    ((∃ c ∈ l, c.text = t) →
      ∃ c, classify_comment l t k = CommentAction.existing c ∧
        firstWith (fun x => x.text = t) l c) ∧
    ((∀ c ∈ l, c.text ≠ t) → (∃ c ∈ l, strContains c.text k = true) →
      ∃ c, classify_comment l t k = CommentAction.update c ∧
        firstWith (fun x => strContains x.text k = true) l c) ∧
    ((∀ c ∈ l, c.text ≠ t) → (∀ c ∈ l, strContains c.text k ≠ true) →
      classify_comment l t k = CommentAction.post) := by
  refine ⟨?_, ?_, ?_⟩
  · rintro ⟨c0, hmem, htext⟩
    have hsome : (l.find? (fun x => x.text == t)).isSome := by
      rw [List.find?_isSome]
      exact ⟨c0, hmem, by simpa using htext⟩
    obtain ⟨c, hc⟩ := Option.isSome_iff_exists.mp hsome
    refine ⟨c, ?_, ?_⟩
    · unfold classify_comment matching_comments
      rw [hc]
    · exact firstWith_congr (fun x => by simp) (find?_imp_firstWith _ _ _ hc)
  · intro hne
    rintro ⟨c0, hmem, hsub⟩
    have hnone : matching_comments l t = none := by
      unfold matching_comments
      rw [List.find?_eq_none]
      intro x hx
      simpa using hne x hx
    have hsome : (l.find? (fun x => strContains x.text k)).isSome := by
      rw [List.find?_isSome]
      exact ⟨c0, hmem, hsub⟩
    obtain ⟨c, hc⟩ := Option.isSome_iff_exists.mp hsome
    refine ⟨c, ?_, ?_⟩
    · unfold classify_comment
      rw [hnone]
      unfold matching_comments_substring
      rw [hc]
    · exact firstWith_congr (fun x => by simp) (find?_imp_firstWith _ _ _ hc)
  · intro hne hnsub
    have hnone : matching_comments l t = none := by
      unfold matching_comments
      rw [List.find?_eq_none]
      intro x hx
      simpa using hne x hx
    have hnone2 : matching_comments_substring l k = none := by
      unfold matching_comments_substring
      rw [List.find?_eq_none]
      intro x hx
      simpa using hnsub x hx
    unfold classify_comment
    rw [hnone, hnone2]

/-- Sample integration-account user for concrete comments. -/
def botUser : User :=
  { name := "pr_demon"
    emailAddress := "bot@example.com"
    id := 9
    displayName := "PR Demon"
    active := true
    slug := "pr-demon"
    links := [] }

/-- A concrete comment that contains the commit id `abc123` but not the
desired text. -/
def commentSubstrX : Comment :=
  { id := 100
    version := 3
    text := "⏳ [Build](http://b) for commit abc123 queued"
    author := botUser
    createdDate := 1
    updatedDate := 2 }

/-- A concrete comment whose text is exactly the desired text. -/
def commentExactX : Comment :=
  { id := 101
    version := 0
    text := "❌ [Build](http://b) for commit abc123 has **failed**: oops"
    author := botUser
    createdDate := 3
    updatedDate := 4 }

/-- An unrelated concrete comment. -/
def commentOtherX : Comment :=
  { id := 102
    version := 1
    text := "LGTM"
    author := botUser
    createdDate := 5
    updatedDate := 6 }

/-- C1 witness: with an earlier substring match and a later exact match in
the list, the exact match wins and the first-match split is exhibited. -/
theorem matcher_classification_witness :
    (∃ c ∈ [commentSubstrX, commentExactX],
      c.text = "❌ [Build](http://b) for commit abc123 has **failed**: oops") ∧
    ∃ c, classify_comment [commentSubstrX, commentExactX]
        "❌ [Build](http://b) for commit abc123 has **failed**: oops" "abc123" =
          CommentAction.existing c ∧
      firstWith (fun x =>
        x.text = "❌ [Build](http://b) for commit abc123 has **failed**: oops")
        [commentSubstrX, commentExactX] c := by
  refine ⟨⟨commentExactX, by decide, rfl⟩, ?_⟩
  exact (matcher_classification [commentSubstrX, commentExactX]
    "❌ [Build](http://b) for commit abc123 has **failed**: oops" "abc123").1
    ⟨commentExactX, by decide, rfl⟩

/-! ## C2: idempotent redelivery performs no write -/

/-- C2: when the fetched candidate list already contains a comment whose
text equals the desired text, the reconciliation performs zero remote
writes, returns `Ok` with the first such comment, and its only effect is
the `Existing`-tagged broadcast carrying that comment. -/
theorem redelivery_no_write (env : RemoteEnv) (pr : core.PullRequest)
    (build : core.BuildDetails) (state : BuildState) (l : List Comment)
    (h1 : env.comments = Except.ok l)
    (h2 : ∃ c ∈ l, c.text = desired_text build pr state) :
    writeCount (update_pr_build_status_comment env pr build state).2 = 0 ∧
    ∃ c, (update_pr_build_status_comment env pr build state).1 = Except.ok c ∧
      firstWith (fun x => x.text = desired_text build pr state) l c ∧
      (update_pr_build_status_comment env pr build state).2 =
        [Effect.broadcast "Bitbucket::Comment::Existing"
          { pr := pr, build := build, comment := some c }] := by
  obtain ⟨c0, hmem, htext⟩ := h2
  have hsome : (l.find? (fun x => x.text == desired_text build pr state)).isSome := by
    rw [List.find?_isSome]
    exact ⟨c0, hmem, by simpa using htext⟩
  obtain ⟨c, hc⟩ := Option.isSome_iff_exists.mp hsome
  have hclass : classify_comment l (desired_text build pr state) pr.from_commit =
      CommentAction.existing c := by
    unfold classify_comment matching_comments
    rw [hc]
  have hfw : firstWith (fun x => x.text = desired_text build pr state) l c :=
    firstWith_congr (fun x => by simp) (find?_imp_firstWith _ _ _ hc)
  refine ⟨?_, c, ?_, hfw, ?_⟩ <;>
    simp [update_pr_build_status_comment, h1, hclass, broadcastEffect,
      writeCount, isWriteEffect, Except.toOption]

/-- A concrete environment whose comment fetch succeeds. -/
def envOkX : RemoteEnv :=
  { comments := Except.ok [commentSubstrX, commentExactX]
    editResult := Except.ok commentSubstrX
    postResult := Except.ok commentOtherX
    postBuildResponse := Except.ok StatusCode.noContent }

/-- C2 witness: a redelivered failure event whose text is already present
reuses the existing comment without writing. -/
theorem redelivery_no_write_witness :
    envOkX.comments = Except.ok [commentSubstrX, commentExactX] ∧
    (∃ c ∈ [commentSubstrX, commentExactX],
      c.text = desired_text buildFailureX prX BuildState.FAILED) ∧
    writeCount (update_pr_build_status_comment envOkX prX buildFailureX
      BuildState.FAILED).2 = 0 ∧
    ∃ c, (update_pr_build_status_comment envOkX prX buildFailureX
        BuildState.FAILED).1 = Except.ok c ∧
      firstWith (fun x => x.text = desired_text buildFailureX prX BuildState.FAILED)
        [commentSubstrX, commentExactX] c ∧
      (update_pr_build_status_comment envOkX prX buildFailureX BuildState.FAILED).2 =
        [Effect.broadcast "Bitbucket::Comment::Existing"
          { pr := prX, build := buildFailureX, comment := some c }] :=
  ⟨rfl, ⟨commentExactX, by decide, by decide⟩,
    redelivery_no_write envOkX prX buildFailureX BuildState.FAILED
      [commentSubstrX, commentExactX] rfl ⟨commentExactX, by decide, by decide⟩⟩

/-! ## C6: a failed candidate fetch short-circuits -/

/-- C6: when fetching the candidate list fails, the reconciliation returns
the formatted error, performs no write, and its only effect is one
`Error`-tagged broadcast whose payload has no comment. -/
theorem list_failure_no_write (env : RemoteEnv) (pr : core.PullRequest)
    (build : core.BuildDetails) (state : BuildState) (e : String)
    (h : env.comments = Except.error e) :
    (update_pr_build_status_comment env pr build state).1 =
      Except.error ("Error getting list of comments " ++ e) ∧
    writeCount (update_pr_build_status_comment env pr build state).2 = 0 ∧
    (update_pr_build_status_comment env pr build state).2 =
      [Effect.broadcast "Bitbucket::Comment::Error"
        { pr := pr, build := build, comment := none }] := by
  refine ⟨?_, ?_, ?_⟩ <;>
    simp [update_pr_build_status_comment, h, broadcastEffect,
      writeCount, isWriteEffect, Except.toOption]

/-- A concrete environment whose comment fetch fails. -/
def envListFailX : RemoteEnv :=
  { envOkX with comments := Except.error "HTTP 500" }

/-- C6 witness: the failed fetch at a concrete environment. -/
theorem list_failure_no_write_witness :
    envListFailX.comments = Except.error "HTTP 500" ∧
    (update_pr_build_status_comment envListFailX prX buildFailureX
        BuildState.FAILED).1 =
      Except.error ("Error getting list of comments " ++ "HTTP 500") ∧
    writeCount (update_pr_build_status_comment envListFailX prX buildFailureX
      BuildState.FAILED).2 = 0 ∧
    (update_pr_build_status_comment envListFailX prX buildFailureX
        BuildState.FAILED).2 =
      [Effect.broadcast "Bitbucket::Comment::Error"
        { pr := prX, build := buildFailureX, comment := none }] :=
  ⟨rfl, list_failure_no_write envListFailX prX buildFailureX
    BuildState.FAILED "HTTP 500" rfl⟩

/-! ## C7: status-post gating -/

lemma postBuildCount_append (a b : List Effect) :
    postBuildCount (a ++ b) = postBuildCount a + postBuildCount b := by
  simp [postBuildCount, List.filter_append]

lemma postBuildCount_update (env : RemoteEnv) (pr : core.PullRequest)
    (build : core.BuildDetails) (state : BuildState) :
    postBuildCount (update_pr_build_status_comment env pr build state).2 = 0 := by
  cases henv : env.comments with
  | error e =>
    simp [update_pr_build_status_comment, henv, broadcastEffect,
      postBuildCount, isPostBuildEffect]
  | ok l =>
    cases hc : classify_comment l (desired_text build pr state) pr.from_commit with
    | existing c =>
      simp [update_pr_build_status_comment, henv, hc, broadcastEffect,
        postBuildCount, isPostBuildEffect]
    | update c =>
      simp [update_pr_build_status_comment, henv, hc, edit_comment,
        broadcastEffect, postBuildCount, isPostBuildEffect]
    | post =>
      simp [update_pr_build_status_comment, henv, hc, post_comment,
        broadcastEffect, postBuildCount, isPostBuildEffect]

lemma gate_queued (env : RemoteEnv) (credentials : BitbucketCredentials)
    (pr : core.PullRequest) (build : core.BuildDetails) :
    postBuildCount (build_queued env credentials pr build).2 =
      if credentials.post_build = true ∧
          (update_pr_build_status_comment env pr build
            BuildState.INPROGRESS).1.toBool = true
      then 1 else 0 := by
  have h0 := postBuildCount_update env pr build BuildState.INPROGRESS
  cases hres : (update_pr_build_status_comment env pr build BuildState.INPROGRESS).1 with
  | error err =>
    simp [build_queued, hres, h0, Except.toBool]
  | ok c =>
    cases hflag : credentials.post_build with
    | false => simp [build_queued, hres, hflag, h0, Except.toBool]
    | true =>
      have h1 : postBuildCount (post_build env build pr).2 = 1 := rfl
      simp [build_queued, hres, hflag, Except.toBool, postBuildCount_append, h0, h1]

lemma gate_success (env : RemoteEnv) (credentials : BitbucketCredentials)
    (pr : core.PullRequest) (build : core.BuildDetails) :
    postBuildCount (build_success env credentials pr build).2 =
      if credentials.post_build = true ∧
          (update_pr_build_status_comment env pr build
            BuildState.SUCCESSFUL).1.toBool = true
      then 1 else 0 := by
  have h0 := postBuildCount_update env pr build BuildState.SUCCESSFUL
  cases hres : (update_pr_build_status_comment env pr build BuildState.SUCCESSFUL).1 with
  | error err =>
    simp [build_success, hres, h0, Except.toBool]
  | ok c =>
    cases hflag : credentials.post_build with
    | false => simp [build_success, hres, hflag, h0, Except.toBool]
    | true =>
      have h1 : postBuildCount (post_build env build pr).2 = 1 := rfl
      simp [build_success, hres, hflag, Except.toBool, postBuildCount_append, h0, h1]

lemma gate_failure (env : RemoteEnv) (credentials : BitbucketCredentials)
    (pr : core.PullRequest) (build : core.BuildDetails) :
    postBuildCount (build_failure env credentials pr build).2 =
      if credentials.post_build = true ∧
          (update_pr_build_status_comment env pr build
            BuildState.FAILED).1.toBool = true
      then 1 else 0 := by
  have h0 := postBuildCount_update env pr build BuildState.FAILED
  cases hres : (update_pr_build_status_comment env pr build BuildState.FAILED).1 with
  | error err =>
    simp [build_failure, hres, h0, Except.toBool]
  | ok c =>
    cases hflag : credentials.post_build with
    | false => simp [build_failure, hres, hflag, h0, Except.toBool]
    | true =>
      have h1 : postBuildCount (post_build env build pr).2 = 1 := rfl
      simp [build_failure, hres, hflag, Except.toBool, postBuildCount_append, h0, h1]

/-- C7: each lifecycle entry point posts the native build status exactly
once when the `post_build` flag is set and the comment reconciliation
succeeded, and never otherwise. -/
theorem status_post_gating (env : RemoteEnv) (credentials : BitbucketCredentials)
    (pr : core.PullRequest) (build : core.BuildDetails) :
    (postBuildCount (build_queued env credentials pr build).2 =
      if credentials.post_build = true ∧
          (update_pr_build_status_comment env pr build
            BuildState.INPROGRESS).1.toBool = true
      then 1 else 0) ∧
    (postBuildCount (build_running env credentials pr build).2 =
      if credentials.post_build = true ∧
          (update_pr_build_status_comment env pr build
            BuildState.INPROGRESS).1.toBool = true
      then 1 else 0) ∧
    (postBuildCount (build_success env credentials pr build).2 =
      if credentials.post_build = true ∧
          (update_pr_build_status_comment env pr build
            BuildState.SUCCESSFUL).1.toBool = true
      then 1 else 0) ∧
    (postBuildCount (build_failure env credentials pr build).2 =
      if credentials.post_build = true ∧
          (update_pr_build_status_comment env pr build
            BuildState.FAILED).1.toBool = true
      then 1 else 0) :=
  ⟨gate_queued env credentials pr build,
   gate_queued env credentials pr build,
   gate_success env credentials pr build,
   gate_failure env credentials pr build⟩

/-! ## C5: substring match issues exactly one edit -/

/-- C5: with no exact match but a commit-id substring match among the
candidates, the reconciliation issues exactly one edit call carrying the
first matched comment's id and version together with the desired text,
broadcasts the `Update`-tagged event, and returns the edit collaborator's
comment when the edit succeeds. -/
theorem transition_single_edit (env : RemoteEnv) (pr : core.PullRequest)
    (build : core.BuildDetails) (state : BuildState) (l : List Comment)
    (h1 : env.comments = Except.ok l)
    (h2 : ∀ c ∈ l, c.text ≠ desired_text build pr state)
    (h3 : ∃ c ∈ l, strContains c.text pr.from_commit = true) :
    ∃ m, firstWith (fun x => strContains x.text pr.from_commit = true) l m ∧
      (update_pr_build_status_comment env pr build state).2 =
        [Effect.editCall pr.id m.id m.version (desired_text build pr state),
         Effect.broadcast "Bitbucket::Comment::Update"
           { pr := pr, build := build,
             comment := (update_pr_build_status_comment env pr build state).1.toOption }] ∧
      writeCount (update_pr_build_status_comment env pr build state).2 = 1 ∧
      ∀ c', env.editResult = Except.ok c' →
        (update_pr_build_status_comment env pr build state).1 = Except.ok c' := by
  obtain ⟨c0, hmem, hsub⟩ := h3
  have hnone : matching_comments l (desired_text build pr state) = none := by
    unfold matching_comments
    rw [List.find?_eq_none]
    intro x hx
    simpa using h2 x hx
  have hsome : (l.find? (fun x => strContains x.text pr.from_commit)).isSome := by
    rw [List.find?_isSome]
    exact ⟨c0, hmem, hsub⟩
  obtain ⟨m, hm⟩ := Option.isSome_iff_exists.mp hsome
  have hclass : classify_comment l (desired_text build pr state) pr.from_commit =
      CommentAction.update m := by
    unfold classify_comment
    rw [hnone]
    unfold matching_comments_substring
    rw [hm]
  have hfw : firstWith (fun x => strContains x.text pr.from_commit = true) l m :=
    firstWith_congr (fun x => by simp) (find?_imp_firstWith _ _ _ hm)
  refine ⟨m, hfw, ?_, ?_, ?_⟩
  · simp [update_pr_build_status_comment, h1, hclass, edit_comment,
      broadcastEffect]
  · simp [update_pr_build_status_comment, h1, hclass, edit_comment,
      broadcastEffect, writeCount, isWriteEffect]
  · intro c' he
    simp [update_pr_build_status_comment, h1, hclass, edit_comment, he]

/-- A concrete environment for the edit path: no exact match is possible
for a success event, and the edit call succeeds. -/
def envEditX : RemoteEnv :=
  { comments := Except.ok [commentOtherX, commentSubstrX]
    editResult := Except.ok commentExactX
    postResult := Except.ok commentOtherX
    postBuildResponse := Except.ok StatusCode.noContent }

/-- C5 witness: a success event against a list holding a queued comment for
the same commit edits that comment in place. -/
theorem transition_single_edit_witness :
    envEditX.comments = Except.ok [commentOtherX, commentSubstrX] ∧
    (∀ c ∈ [commentOtherX, commentSubstrX],
      c.text ≠ desired_text buildSuccessX prX BuildState.SUCCESSFUL) ∧
    (∃ c ∈ [commentOtherX, commentSubstrX],
      strContains c.text prX.from_commit = true) ∧
    ∃ m, firstWith (fun x => strContains x.text prX.from_commit = true)
        [commentOtherX, commentSubstrX] m ∧
      (update_pr_build_status_comment envEditX prX buildSuccessX
          BuildState.SUCCESSFUL).2 =
        [Effect.editCall prX.id m.id m.version
          (desired_text buildSuccessX prX BuildState.SUCCESSFUL),
         Effect.broadcast "Bitbucket::Comment::Update"
           { pr := prX, build := buildSuccessX,
             comment := (update_pr_build_status_comment envEditX prX buildSuccessX
               BuildState.SUCCESSFUL).1.toOption }] ∧
      writeCount (update_pr_build_status_comment envEditX prX buildSuccessX
        BuildState.SUCCESSFUL).2 = 1 ∧
      ∀ c', envEditX.editResult = Except.ok c' →
        (update_pr_build_status_comment envEditX prX buildSuccessX
          BuildState.SUCCESSFUL).1 = Except.ok c' :=
  ⟨rfl, by decide, ⟨commentSubstrX, by decide, by decide⟩,
    transition_single_edit envEditX prX buildSuccessX BuildState.SUCCESSFUL
      [commentOtherX, commentSubstrX] rfl (by decide)
      ⟨commentSubstrX, by decide, by decide⟩⟩

/-! ## C8: the state of the posted build-status record -/

/-- Credentials with native build-status posting enabled. -/
def credX : BitbucketCredentials :=
  { username := "pr_demon"
    password := "hunter2"
    base_url := "http://bitbucket.example"
    project_slug := "PRJ"
    repo_slug := "repo"
    post_build := true }

/-- C8 counterexample: `build_failure`, invoked on a build descriptor whose
phase is still `Queued`, generates its comment from the failed label yet
posts a build-status record whose state is in-progress — the posted state is
derived from the descriptor, not from the lifecycle call. -/
theorem post_state_label_cex :
    Effect.editCall prX.id commentSubstrX.id commentSubstrX.version
        (desired_text buildQueuedX prX BuildState.FAILED) ∈
      (build_failure envOkX credX prX buildQueuedX).2 ∧
    Effect.postBuildCall prX.from_commit (make_build buildQueuedX) ∈
      (build_failure envOkX credX prX buildQueuedX).2 ∧
    (make_build buildQueuedX).state = BuildState.INPROGRESS ∧
    BuildState.INPROGRESS ≠ BuildState.FAILED := by
  refine ⟨?_, ?_, rfl, by decide⟩ <;> decide

/-- Modelled from the spec: `labelFor(phase, outcome)` — Queued and Running
map to in-progress, Finished with Success to successful, Finished with any
other outcome to failed. -/
def labelFor (phase : core.BuildState) (outcome : core.BuildStatus) : BuildState :=
  match phase, outcome with
  | core.BuildState.Finished, core.BuildStatus.Success => BuildState.SUCCESSFUL
  | core.BuildState.Finished, _ => BuildState.FAILED
  | _, _ => BuildState.INPROGRESS

lemma postBuild_effects_update (env : RemoteEnv) (pr : core.PullRequest)
    (build : core.BuildDetails) (state : BuildState) :
    ∀ e ∈ (update_pr_build_status_comment env pr build state).2,
      isPostBuildEffect e = false := by
  intro e he
  have h0 := postBuildCount_update env pr build state
  rw [postBuildCount, List.length_eq_zero] at h0
  cases hcase : isPostBuildEffect e with
  | false => rfl
  | true =>
    have : e ∈ List.filter isPostBuildEffect
        (update_pr_build_status_comment env pr build state).2 :=
      List.mem_filter.mpr ⟨he, hcase⟩
    rw [h0] at this
    exact absurd this (List.not_mem_nil e)

lemma postBuild_effect_queued (env : RemoteEnv) (credentials : BitbucketCredentials)
    (pr : core.PullRequest) (build : core.BuildDetails) :
    ∀ e ∈ (build_queued env credentials pr build).2, isPostBuildEffect e = true →
      e = Effect.postBuildCall pr.from_commit (make_build build) := by
  intro e he hp
  have hupd := postBuild_effects_update env pr build BuildState.INPROGRESS
  cases hres : (update_pr_build_status_comment env pr build BuildState.INPROGRESS).1 with
  | error err =>
    simp only [build_queued, hres] at he
    rw [hupd e he] at hp
    exact absurd hp (by simp)
  | ok c =>
    cases hflag : credentials.post_build with
    | false =>
      simp only [build_queued, hres, hflag] at he
      rw [hupd e he] at hp
      exact absurd hp (by simp)
    | true =>
      simp only [build_queued, hres, hflag, List.mem_append] at he
      rcases he with he | he
      · rw [hupd e he] at hp
        exact absurd hp (by simp)
      · have hpost : (post_build env build pr).2 =
            [Effect.postBuildCall pr.from_commit (make_build build)] := rfl
        rw [hpost] at he
        simpa using he

lemma postBuild_effect_success (env : RemoteEnv) (credentials : BitbucketCredentials)
    (pr : core.PullRequest) (build : core.BuildDetails) :
    ∀ e ∈ (build_success env credentials pr build).2, isPostBuildEffect e = true →
      e = Effect.postBuildCall pr.from_commit (make_build build) := by
  intro e he hp
  have hupd := postBuild_effects_update env pr build BuildState.SUCCESSFUL
  cases hres : (update_pr_build_status_comment env pr build BuildState.SUCCESSFUL).1 with
  | error err =>
    simp only [build_success, hres] at he
    rw [hupd e he] at hp
    exact absurd hp (by simp)
  | ok c =>
    cases hflag : credentials.post_build with
    | false =>
      simp only [build_success, hres, hflag] at he
      rw [hupd e he] at hp
      exact absurd hp (by simp)
    | true =>
      simp only [build_success, hres, hflag, List.mem_append] at he
      rcases he with he | he
      · rw [hupd e he] at hp
        exact absurd hp (by simp)
      · have hpost : (post_build env build pr).2 =
            [Effect.postBuildCall pr.from_commit (make_build build)] := rfl
        rw [hpost] at he
        simpa using he

lemma postBuild_effect_failure (env : RemoteEnv) (credentials : BitbucketCredentials)
    (pr : core.PullRequest) (build : core.BuildDetails) :
    ∀ e ∈ (build_failure env credentials pr build).2, isPostBuildEffect e = true →
      e = Effect.postBuildCall pr.from_commit (make_build build) := by
  intro e he hp
  have hupd := postBuild_effects_update env pr build BuildState.FAILED
  cases hres : (update_pr_build_status_comment env pr build BuildState.FAILED).1 with
  | error err =>
    simp only [build_failure, hres] at he
    rw [hupd e he] at hp
    exact absurd hp (by simp)
  | ok c =>
    cases hflag : credentials.post_build with
    | false =>
      simp only [build_failure, hres, hflag] at he
      rw [hupd e he] at hp
      exact absurd hp (by simp)
    | true =>
      simp only [build_failure, hres, hflag, List.mem_append] at he
      rcases he with he | he
      · rw [hupd e he] at hp
        exact absurd hp (by simp)
      · have hpost : (post_build env build pr).2 =
            [Effect.postBuildCall pr.from_commit (make_build build)] := rfl
        rw [hpost] at he
        simpa using he

/-- C8 (amended): every build-status record any entry point posts is
`make_build` of the build descriptor, so its state is the mapper's label
computed from the descriptor's phase and outcome — independent of which
lifecycle entry point was invoked. -/
theorem post_state_mapping :
    (∀ build : core.BuildDetails,
      (make_build build).state = labelFor build.state build.status) ∧
    (∀ env credentials pr build,
      ∀ e ∈ (build_queued env credentials pr build).2, isPostBuildEffect e = true →
        e = Effect.postBuildCall pr.from_commit (make_build build)) ∧
    (∀ env credentials pr build,
      ∀ e ∈ (build_running env credentials pr build).2, isPostBuildEffect e = true →
        e = Effect.postBuildCall pr.from_commit (make_build build)) ∧
    (∀ env credentials pr build,
      ∀ e ∈ (build_success env credentials pr build).2, isPostBuildEffect e = true →
        e = Effect.postBuildCall pr.from_commit (make_build build)) ∧
    (∀ env credentials pr build,
      ∀ e ∈ (build_failure env credentials pr build).2, isPostBuildEffect e = true →
        e = Effect.postBuildCall pr.from_commit (make_build build)) := by
  refine ⟨?_, postBuild_effect_queued, postBuild_effect_queued,
    postBuild_effect_success, postBuild_effect_failure⟩
  intro build
  rcases build with ⟨id, bid, url, st, out, msg⟩
  cases st <;> cases out <;> rfl

/-- C8 witness: the amended mapping at a concrete queued-phase descriptor
whose status-record post actually happens. -/
theorem post_state_mapping_witness :
    (make_build buildQueuedX).state = labelFor buildQueuedX.state buildQueuedX.status ∧
    Effect.postBuildCall prX.from_commit (make_build buildQueuedX) ∈
      (build_failure envOkX credX prX buildQueuedX).2 ∧
    Effect.postBuildCall prX.from_commit (make_build buildQueuedX) =
      Effect.postBuildCall prX.from_commit (make_build buildQueuedX) :=
  ⟨post_state_mapping.1 buildQueuedX, by decide,
    post_state_mapping.2.2.2.2 envOkX credX prX buildQueuedX
      (Effect.postBuildCall prX.from_commit (make_build buildQueuedX))
      (by decide) (by decide)⟩

/-! ## C9: `get_comments` cannot panic on a successful fetch -/

/-- C9: the comment `unwrap` in `get_comments` never panics — the checked
embedding always returns `some`, and the result is exactly the comments of
the activities whose user name equals the configured username. -/
theorem get_comments_no_panic (u : String) (activities : List Activity) :
    get_comments_checked u activities =
      some (activities.filterMap
        (fun a => if a.user.name = u then a.comment else none)) := by
  induction activities with
  | nil => rfl
  | cons a as ih =>
    unfold get_comments_checked at ih ⊢
    cases hc : a.comment with
    | none =>
      by_cases hn : a.user.name = u <;>
        (simp [List.filter_cons, List.filterMap_cons, List.mapM'_cons, hc, hn,
          List.filter_filter] at ih ⊢
         all_goals simp [ih])
    | some c =>
      by_cases hn : a.user.name = u <;>
        (simp [List.filter_cons, List.filterMap_cons, List.mapM'_cons, hc, hn,
          List.filter_filter] at ih ⊢
         all_goals simp [ih])

/-! ## C10: `get_pr_list` is partial at the public interface -/

lemma mapM_desc_some :
    ∀ l : List PullRequest, (∀ pr ∈ l, (pr_self_link pr).isSome = true) →
    ∃ ds, List.mapM' (fun pr => (pr_self_link pr).map (prDescOf pr)) l = some ds ∧
      List.Forall₂ (fun pr d => ∃ link, pr_self_link pr = some link ∧
        d = prDescOf pr link) l ds := by
  intro l
  induction l with
  | nil => exact fun _ => ⟨[], rfl, List.Forall₂.nil⟩
  | cons a as ih =>
    intro hall
    obtain ⟨link, hlink⟩ :=
      Option.isSome_iff_exists.mp (hall a (List.mem_cons_self a as))
    obtain ⟨ds, hds, hfa⟩ := ih (fun x hx => hall x (List.mem_cons_of_mem a hx))
    refine ⟨prDescOf a link :: ds, ?_, List.Forall₂.cons ⟨link, hlink, rfl⟩ hfa⟩
    simp [List.mapM'_cons, hlink, hds]

lemma mapM_desc_none :
    ∀ (l : List PullRequest) (pr : PullRequest), pr ∈ l → pr_self_link pr = none →
    List.mapM' (fun pr => (pr_self_link pr).map (prDescOf pr)) l = none := by
  intro l
  induction l with
  | nil => exact fun pr hpr _ => absurd hpr (List.not_mem_nil pr)
  | cons a as ih =>
    intro pr hpr hnone
    rcases List.mem_cons.mp hpr with rfl | hpr'
    · simp [List.mapM'_cons, hnone]
    · simp [List.mapM'_cons, ih pr hpr' hnone]

/-- C10: on a successfully fetched page whose every pull request has a
nonempty `"self"` link list, `get_pr_list` returns `Ok` with one descriptor
per pull request whose `web_url` is the href of the first `"self"` link; but
if any pull request lacks the `"self"` key or its link list is empty, the
call panics (embedded `none`) instead of returning an `Err`. -/
theorem pr_list_self_link_panic :
    (∀ page : PagedApi PullRequest,
      (∀ pr ∈ page.values, (pr_self_link pr).isSome = true) →
      ∃ ds, get_pr_list (Except.ok page) = some (Except.ok ds) ∧
        List.Forall₂ (fun (pr : PullRequest) (d : core.PullRequest) =>
          d.id = pr.id ∧ d.from_ref = pr.fromRef.id ∧
          d.from_commit = pr.fromRef.latestCommit ∧ d.title = pr.title ∧
          d.author.name = pr.author.user.displayName ∧
          d.author.email = pr.author.user.emailAddress ∧
          ∃ hd tl, pr.links.lookup "self" = some (hd :: tl) ∧ d.web_url = hd.href)
          page.values ds) ∧
    (∀ (page : PagedApi PullRequest) (pr : PullRequest), pr ∈ page.values →
      (pr.links.lookup "self" = none ∨ pr.links.lookup "self" = some []) →
      get_pr_list (Except.ok page) = none) := by
  constructor
  · intro page hall
    obtain ⟨ds, hds, hfa⟩ := mapM_desc_some page.values hall
    refine ⟨ds, ?_, ?_⟩
    · simp only [get_pr_list]
      rw [hds]
      rfl
    · refine List.Forall₂.imp ?_ hfa
      rintro pr d ⟨link, hlink, rfl⟩
      refine ⟨rfl, rfl, rfl, rfl, rfl, rfl, ?_⟩
      unfold pr_self_link at hlink
      cases hlk : pr.links.lookup "self" with
      | none => rw [hlk] at hlink; simp at hlink
      | some ll =>
        rw [hlk] at hlink
        cases ll with
        | nil => simp at hlink
        | cons hd tl =>
          have hhd : hd = link := by simpa using hlink
          subst hhd
          exact ⟨hd, tl, rfl, rfl⟩
  · intro page pr hpr hbad
    have hnone : pr_self_link pr = none := by
      unfold pr_self_link
      rcases hbad with h | h <;> rw [h] <;> rfl
    simp only [get_pr_list]
    rw [mapM_desc_none page.values pr hpr hnone]
    rfl

/-- Sample project of the sample repository. -/
def projectX : Project :=
  { key := "PRJ"
    id := 1
    name := "Project"
    description := "d"
    public := true
    links := [] }

/-- Sample repository for the sample git references. -/
def repoX : Repository :=
  { slug := "repo"
    name := some "repo"
    project := projectX
    public := true
    links := [] }

/-- Sample source git reference pointing at commit `abc123`. -/
def fromRefX : GitReference :=
  { id := "refs/heads/topic"
    repository := repoX
    displayId := "topic"
    latestCommit := "abc123" }

/-- Sample target git reference. -/
def toRefX : GitReference :=
  { id := "refs/heads/master"
    repository := repoX
    displayId := "master"
    latestCommit := "def456" }

/-- Sample author participant. -/
def authorX : PullRequestParticipant :=
  { user := botUser, role := "AUTHOR", approved := false }

/-- A wire pull request carrying a nonempty `"self"` link list. -/
def prGoodX : PullRequest :=
  { id := 42
    version := 1
    title := "A change"
    description := none
    state := "OPEN"
    isOpen := true
    closed := false
    createdDate := 1
    updatedDate := 2
    fromRef := fromRefX
    toRef := toRefX
    locked := false
    author := authorX
    reviewers := []
    participants := []
    links := [("self", [{ href := "http://example/pr/42", name := none }])] }

/-- A wire pull request with no `"self"` key in its links map. -/
def prBadX : PullRequest :=
  { prGoodX with id := 43, links := [] }

/-- A one-element page of well-linked pull requests. -/
def pageGoodX : PagedApi PullRequest :=
  { size := 1, limit := 25, isLastPage := true, values := [prGoodX], start := 0 }

/-- A page containing a pull request without a `"self"` link. -/
def pageBadX : PagedApi PullRequest :=
  { size := 2, limit := 25, isLastPage := true, values := [prGoodX, prBadX], start := 0 }

/-- C10 witness: a page of well-linked pull requests maps to descriptors,
and a page containing a pull request without a `"self"` link panics. -/
theorem pr_list_self_link_panic_witness :
    (∀ pr ∈ pageGoodX.values, (pr_self_link pr).isSome = true) ∧
    (∃ ds, get_pr_list (Except.ok pageGoodX) = some (Except.ok ds) ∧
      List.Forall₂ (fun (pr : PullRequest) (d : core.PullRequest) =>
        d.id = pr.id ∧ d.from_ref = pr.fromRef.id ∧
        d.from_commit = pr.fromRef.latestCommit ∧ d.title = pr.title ∧
        d.author.name = pr.author.user.displayName ∧
        d.author.email = pr.author.user.emailAddress ∧
        ∃ hd tl, pr.links.lookup "self" = some (hd :: tl) ∧ d.web_url = hd.href)
        pageGoodX.values ds) ∧
    get_pr_list (Except.ok pageBadX) = none :=
  ⟨by decide,
   pr_list_self_link_panic.1 pageGoodX (by decide),
   pr_list_self_link_panic.2 pageBadX prBadX (by decide) (Or.inl (by decide))⟩
